import Mathlib

/-!
Shallow embedding of `src/App.tsx` of the simple-chat repository.

The component keeps four pieces of React state (`App.tsx` lines 16--19):
the conversation list, the current (active) conversation snapshot, the
draft input text, and the listening flag.  Strings are modelled as Lean
`String`s (sequences of characters; the JS code indexes UTF-16 units,
which coincides with characters for the inputs considered here).
`Date.now()` is passed in as an explicit `now : Nat` parameter.

The `setTimeout` callback inside `handleSendMessage` (lines 81--93) is a
JavaScript closure over the *render-time* values of `conversations`,
`currentConversation`, `inputText` and `newMessage`; those are the values
from before the synchronous part of the send ran.  We therefore model a
scheduled reply as a `PendingReply` record holding exactly the captured
values, and the timer firing as a state transformer `replyCallback`.
-/

/-- Message record, `App.tsx` lines 4--7. -/
structure Message where
  text : String
  isUser : Bool
deriving DecidableEq

/-- Conversation record, `App.tsx` lines 9--13. -/
structure Conversation where
  id : Nat
  title : String
  messages : List Message
deriving DecidableEq

/-- The four `useState` hooks of the component, `App.tsx` lines 16--19. -/
structure AppState where
  conversations : List Conversation
  currentConversation : Option Conversation
  inputText : String
  isListening : Bool
deriving DecidableEq

/-- Model of JavaScript `String.prototype.trim`: drops leading and
trailing whitespace characters. -/
def jsTrim (s : String) : String :=
  ⟨((s.data.dropWhile Char.isWhitespace).reverse.dropWhile Char.isWhitespace).reverse⟩

/-- Model of JavaScript `s.slice(0, n)`: the first `n` characters. -/
def jsTake (s : String) (n : Nat) : String :=
  ⟨s.data.take n⟩

/-- Title computation for a fresh conversation, `App.tsx` line 72:
`inputText.slice(0, 30) + (inputText.length > 30 ? '...' : '')`. -/
def mkTitle (text : String) : String :=
  jsTake text 30 ++ (if text.length > 30 then "..." else "")

/-- Data captured by the `setTimeout` closure of `App.tsx` lines 81--93:
the delay constant and the render-time (pre-send) values of
`conversations`, `currentConversation`, `inputText`, plus `newMessage`. -/
structure PendingReply where
  delayMs : Nat
  conversations : List Conversation
  currentConversation : Option Conversation
  inputText : String
  newMessage : Message
deriving DecidableEq

/-- `handleSendMessage`, `App.tsx` lines 57--95 (synchronous part).
Returns the updated state together with the scheduled reply closure, if
any.  `if (inputText.trim())` is truthy exactly when the trimmed draft is
non-empty. -/
def handleSendMessage (s : AppState) (now : Nat) : AppState × Option PendingReply :=
  if jsTrim s.inputText = "" then (s, none)
  else
    let newMessage : Message := { text := s.inputText, isUser := true }
    let afterAppend : AppState :=
      match s.currentConversation with
      | some currentConversation =>
        let updatedConversation : Conversation :=
          { currentConversation with
            messages := currentConversation.messages ++ [newMessage] }
        { s with
          currentConversation := some updatedConversation
          conversations := s.conversations.map fun conv =>
            if conv.id = currentConversation.id then updatedConversation else conv }
      | none =>
        let newConversation : Conversation :=
          { id := now, title := mkTitle s.inputText, messages := [newMessage] }
        { s with
          currentConversation := some newConversation
          conversations := s.conversations ++ [newConversation] }
    ({ afterAppend with inputText := "" },
     some { delayMs := 1000
            conversations := s.conversations
            currentConversation := s.currentConversation
            inputText := s.inputText
            newMessage := newMessage })

/-- The `setTimeout` callback body of `App.tsx` lines 81--93, applied when
the timer fires.  `p` holds the values the closure captured at send time;
`s` is the state current when the timer fires.  Note the callback tests
the *captured* `currentConversation` and rebuilds the conversation list
from the *captured* `conversations`. -/
def replyCallback (p : PendingReply) (s : AppState) : AppState :=
  let botResponse : Message := { text := "You said: " ++ p.inputText, isUser := false }
  match p.currentConversation with
  | some currentConversation =>
    let updatedConversation : Conversation :=
      { currentConversation with
        messages := currentConversation.messages ++ [p.newMessage, botResponse] }
    { s with
      currentConversation := some updatedConversation
      conversations := p.conversations.map fun conv =>
        if conv.id = currentConversation.id then updatedConversation else conv }
  | none => s

/-- One entry of `event.results`, represented by the transcript of its
first alternative (`result[0].transcript`, `App.tsx` line 33). -/
structure SpeechRecognitionResult where
  transcript : String
deriving DecidableEq

/-- `recognition.onresult`, `App.tsx` lines 31--36: joins the transcripts
of all result segments and overwrites the draft with the result. -/
def recognitionOnResult (results : List SpeechRecognitionResult) (s : AppState) : AppState :=
  { s with inputText := String.join (results.map fun result => result.transcript) }

/-- `selectConversation`, `App.tsx` lines 114--116. -/
def selectConversation (s : AppState) (conversation : Conversation) : AppState :=
  { s with currentConversation := some conversation }

/-- `startNewConversation`, `App.tsx` lines 110--112. -/
def startNewConversation (s : AppState) : AppState :=
  { s with currentConversation := none }

/-- UI dispatch of a sidebar click by conversation id, `App.tsx` lines
180--191: the sidebar renders one clickable entry per stored conversation
and its `onClick` calls `selectConversation(conv)` on that stored element,
so selecting an id that is not in the store dispatches nothing. -/
def selectConversationById (s : AppState) (id : Nat) : AppState :=
  match s.conversations.find? (fun conv => conv.id = id) with
  | some conv => selectConversation s conv
  | none => s

/-- The text input `onChange` handler, `App.tsx` line 150. -/
def setInputText (t : String) (s : AppState) : AppState :=
  { s with inputText := t }

/-- Whole-system state: the component state plus the queue of scheduled
reply timers, in scheduling order (all timers share the same 1000ms
delay, so they fire in scheduling order). -/
structure SysState where
  app : AppState
  pending : List PendingReply
deriving DecidableEq

/-- The UI-thread callbacks that mutate state. -/
inductive Event where
  | send (now : Nat)
  | fire
  | selectById (id : Nat)
  | newConv
  | typeText (t : String)
  | speech (results : List SpeechRecognitionResult)
deriving DecidableEq

/-- One run-to-completion callback, per the single-threaded event model. -/
def step (σ : SysState) (e : Event) : SysState :=
  match e with
  | .send now =>
    let r := handleSendMessage σ.app now
    { app := r.1, pending := σ.pending ++ r.2.toList }
  | .fire =>
    match σ.pending with
    | [] => σ
    | p :: rest => { app := replyCallback p σ.app, pending := rest }
  | .selectById id => { σ with app := selectConversationById σ.app id }
  | .newConv => { σ with app := startNewConversation σ.app }
  | .typeText t => { σ with app := setInputText t σ.app }
  | .speech results => { σ with app := recognitionOnResult results σ.app }

/-- Fresh component state on load, `App.tsx` lines 16--19. -/
def initState : SysState :=
  { app := { conversations := [], currentConversation := none,
             inputText := "", isListening := false },
    pending := [] }

/-- Run a sequence of callbacks from the fresh state. -/
def run (es : List Event) : SysState :=
  es.foldl step initState

/-- Store invariant relating the two copies of the active conversation:
stored conversation ids are pairwise distinct, and the active snapshot,
when present, is one of the stored conversations.  This holds of every
state the component actually reaches (fresh `Date.now()` ids assumed). -/
def StoreInv (s : AppState) : Prop :=
  (s.conversations.map Conversation.id).Nodup ∧
    ∀ cc, s.currentConversation = some cc → cc ∈ s.conversations

/-- Membership of a conversation record anywhere in the system state:
in the store, as the active snapshot, or captured inside a scheduled
reply closure. -/
def InSys (σ : SysState) (c : Conversation) : Prop :=
  c ∈ σ.app.conversations ∨
    σ.app.currentConversation = some c ∨
    ∃ p ∈ σ.pending, c ∈ p.conversations ∨ p.currentConversation = some c

/-- All conversation records in the system that share an id carry the
same title (titles are a function of the id). -/
def TitlesAgree (σ : SysState) : Prop :=
  ∀ c, InSys σ c → ∀ c', InSys σ c' → c.id = c'.id → c.title = c'.title

/-- The event's `Date.now()` value, if it is a send, is not an id already
used by any conversation record in the system. -/
def FreshFor (σ : SysState) (e : Event) : Prop :=
  ∀ now, e = .send now → ∀ c, InSys σ c → c.id ≠ now

/-- Every conversation record in the system has a title of at most 33
characters. -/
def TitlesBounded (σ : SysState) : Prop :=
  ∀ c, InSys σ c → c.title.length ≤ 33

/-- Example conversation used to instantiate hypotheses of the claim
theorems at concrete inputs. -/
def convA : Conversation :=
  { id := 1, title := "a", messages := [{ text := "a", isUser := true }] }

/-- Example application state with one stored conversation that is also
the active one. -/
def stateA : AppState :=
  { conversations := [convA], currentConversation := some convA,
    inputText := "", isListening := false }

/-- Second example conversation, distinct from `convA`. -/
def convB : Conversation :=
  { id := 2, title := "b", messages := [{ text := "b", isUser := true }] }

/-- Example captured reply closure: a send of draft "c" made while
`convA` was active and both conversations were stored. -/
def pendingC : PendingReply :=
  { delayMs := 1000, conversations := [convA, convB],
    currentConversation := some convA, inputText := "c",
    newMessage := { text := "c", isUser := true } }

/-- Example application state in which `convB` is active, as after
switching conversations while `pendingC` is still scheduled. -/
def stateB : AppState :=
  { conversations := [convA, convB], currentConversation := some convB,
    inputText := "", isListening := false }

/-- C1.  The claim asserts that every send is followed, 1000ms later, by
a bot reply `"You said: " + draft` appended to the conversation active at
send time, *including* when the send created a new conversation.  The
code contradicts this (and its own comment announcing the echo): the
timeout callback of `App.tsx` lines 81--93 closed over the render-time
`currentConversation`, which was `null` when the send created a fresh
conversation, so the callback's `if (currentConversation)` guard fails
and no bot reply is ever appended.  This theorem evaluates the code at
the failing input: fresh state, type "Hello", send, timer fires; the
resulting state still holds only the user message, and no non-user
message exists anywhere. -/
theorem C1_new_conversation_send_gets_no_reply :
    (run [.typeText "Hello", .send 7, .fire]).app.conversations =
      [{ id := 7, title := "Hello", messages := [{ text := "Hello", isUser := true }] }] ∧
    (run [.typeText "Hello", .send 7, .fire]).pending = [] ∧
    ∀ c ∈ (run [.typeText "Hello", .send 7, .fire]).app.conversations,
      ∀ m ∈ c.messages, m.isUser = true := by decide

/-- C5: submitting while the draft is empty or whitespace-only changes
nothing at all: the whole system state (conversation list, active
conversation, draft, listening flag, pending timers) is unchanged, no
reply is scheduled, and no error is raised (the handler is total). -/
theorem C5_whitespace_send_is_noop (σ : SysState) (now : Nat)
    (h : jsTrim σ.app.inputText = "") :
    step σ (.send now) = σ := by
  cases σ with
  | mk app pending => simp [step, handleSendMessage, h]

/-- Witness for C5 at the concrete draft "   ". -/
theorem C5_whitespace_send_is_noop_witness :
    step { app := { conversations := [], currentConversation := none,
                    inputText := "   ", isListening := false },
           pending := [] } (.send 5) =
      { app := { conversations := [], currentConversation := none,
                 inputText := "   ", isListening := false },
        pending := [] } :=
  C5_whitespace_send_is_noop _ 5 (by decide)

/-- C7: selecting a conversation by an id that no stored conversation
carries is a silent no-op: the whole state, in particular the active
pointer, is unchanged, and no error is raised (the dispatch is total).
In the source the sidebar renders one entry per stored conversation and
its click handler passes that stored element to `selectConversation`, so
an absent id dispatches nothing. -/
theorem C7_select_absent_id_is_noop (σ : SysState) (id : Nat)
    (h : ∀ c ∈ σ.app.conversations, c.id ≠ id) :
    step σ (.selectById id) = σ := by
  have hfind : σ.app.conversations.find? (fun conv => conv.id = id) = none := by
    rw [List.find?_eq_none]
    intro c hc
    simpa using h c hc
  cases σ with
  | mk app pending => simp [step, selectConversationById, hfind]

/-- Witness for C7: selecting id 2 when only id 1 is stored. -/
theorem C7_select_absent_id_is_noop_witness :
    step { app := stateA, pending := [] } (.selectById 2) =
      { app := stateA, pending := [] } :=
  C7_select_absent_id_is_noop _ 2 (by decide)

/-- C9: a speech-recognition result event joins the transcripts of all
result segments seen so far and overwrites the draft with the result,
independently of whatever draft text (typed or spoken) was there before;
conversations and the active pointer are untouched. -/
theorem C9_speech_overwrites_draft (s : AppState)
    (results : List SpeechRecognitionResult) :
    (recognitionOnResult results s).inputText =
        String.join (results.map fun result => result.transcript) ∧
    (∀ s', (recognitionOnResult results s).inputText =
        (recognitionOnResult results s').inputText) ∧
    (recognitionOnResult results s).conversations = s.conversations ∧
    (recognitionOnResult results s).currentConversation = s.currentConversation ∧
    (recognitionOnResult results s).isListening = s.isListening := by
  simp [recognitionOnResult]

/-- C3, counterexample.  The claim (and spec §4.1) say a reply firing
after a conversation switch lands in whichever conversation is active
*at reply time*, together with a duplicate of the triggering user
message.  In the code the timeout closure captured the *send-time*
state, so the reply (with its re-appended user message) lands in the
send-time conversation: after sending "c" in conversation 1, switching
to conversation 2 and letting the timer fire, conversation 2 (active at
reply time) is untouched, conversation 1 holds the reply with no
duplicated user message, and the active pointer is even forced back to
conversation 1. -/
theorem C3_counterexample :
    ((run [.typeText "a", .send 1, .fire, .newConv, .typeText "b", .send 2, .fire,
           .selectById 1, .typeText "c", .send 3, .selectById 2]).app.currentConversation.map
        fun c => c.id) = some 2 ∧
    ((run [.typeText "a", .send 1, .fire, .newConv, .typeText "b", .send 2, .fire,
           .selectById 1, .typeText "c", .send 3, .selectById 2,
           .fire]).app.conversations.map fun c => (c.id, c.messages)) =
      [(1, [{ text := "a", isUser := true }, { text := "c", isUser := true },
            { text := "You said: c", isUser := false }]),
       (2, [{ text := "b", isUser := true }])] ∧
    ((run [.typeText "a", .send 1, .fire, .newConv, .typeText "b", .send 2, .fire,
           .selectById 1, .typeText "c", .send 3, .selectById 2,
           .fire]).app.currentConversation.map fun c => c.id) = some 1 := by decide

/-- C3, amended.  When a scheduled reply fires, its effect is determined
entirely by the send-time closure: the triggering user message and the
bot reply are appended to the *send-time* active conversation snapshot,
the store is rebuilt from the send-time conversation list with only the
entries carrying that conversation's id replaced, every other stored
conversation comes unchanged from the send-time list (in particular the
conversation active at reply time, if different, receives nothing), and
the active pointer is reset to the updated send-time conversation. -/
theorem C3_reply_targets_send_time_conversation (s : AppState) (p : PendingReply)
    (cc : Conversation) (h : p.currentConversation = some cc) :
    (replyCallback p s).currentConversation =
      some { cc with messages := cc.messages ++
        [p.newMessage, { text := "You said: " ++ p.inputText, isUser := false }] } ∧
    (∀ c ∈ (replyCallback p s).conversations, c.id ≠ cc.id → c ∈ p.conversations) ∧
    (∀ c ∈ (replyCallback p s).conversations, c.id = cc.id →
      c = { cc with messages := cc.messages ++
        [p.newMessage, { text := "You said: " ++ p.inputText, isUser := false }] }) := by
  refine ⟨by simp [replyCallback, h], ?_, ?_⟩
  · intro c hc hne
    simp only [replyCallback, h] at hc
    rcases List.mem_map.1 hc with ⟨d, hd, hdc⟩
    by_cases hid : d.id = cc.id
    · simp [hid] at hdc
      subst hdc
      simp at hne
    · simp [hid] at hdc
      subst hdc
      exact hd
  · intro c hc heq
    simp only [replyCallback, h] at hc
    rcases List.mem_map.1 hc with ⟨d, hd, hdc⟩
    by_cases hid : d.id = cc.id
    · simp [hid] at hdc
      exact hdc.symm
    · simp [hid] at hdc
      subst hdc
      exact absurd heq hid

/-- Witness for C3 amended: firing `pendingC` (send-time conversation
`convA`) while `convB` is active resets the active pointer to the
updated send-time conversation. -/
theorem C3_reply_targets_send_time_conversation_witness :
    (replyCallback pendingC stateB).currentConversation =
      some { convA with messages := convA.messages ++
        [pendingC.newMessage,
         { text := "You said: " ++ pendingC.inputText, isUser := false }] } :=
  (C3_reply_targets_send_time_conversation stateB pendingC convA rfl).1

/-- C4, counterexample.  The claim says messages are append-only across
every operation sequence.  A reply timer firing after further sends
violates this: the callback rebuilds the store from its send-time
snapshot, so the user message "c" that was present before the fire is
deleted by it. -/
theorem C4_counterexample :
    (∃ c ∈ (run [.typeText "a", .send 1, .fire, .typeText "b", .send 2,
                 .typeText "c", .send 3]).app.conversations,
        ({ text := "c", isUser := true } : Message) ∈ c.messages) ∧
    (∀ c ∈ (run [.typeText "a", .send 1, .fire, .typeText "b", .send 2,
                 .typeText "c", .send 3, .fire]).app.conversations,
        ({ text := "c", isUser := true } : Message) ∉ c.messages) := by decide

/-- C4, amended.  Messages are append-only under every operation except
a delayed reply firing: for a state whose store satisfies the basic
invariant (distinct ids, active snapshot present in the store), any
send, conversation selection, new-conversation, typing or speech event
leaves every stored conversation in place (same position, same id, same
title) with its message list extended only.  A reply firing is the
exception: it can delete messages appended after its send, as the
counterexample shows. -/
theorem C4_append_only_except_reply_fire (σ : SysState) (e : Event)
    (hinv : StoreInv σ.app) (hfire : e ≠ .fire) :
    ∀ (i : Nat) (c : Conversation), σ.app.conversations[i]? = some c →
      ∃ c', (step σ e).app.conversations[i]? = some c' ∧
        c'.id = c.id ∧ c'.title = c.title ∧ ∃ t, c'.messages = c.messages ++ t := by
  intro i c hc
  cases e with
  | fire => exact absurd rfl hfire
  | newConv =>
    exact ⟨c, by simpa [step, startNewConversation] using hc, rfl, rfl, [],
      (List.append_nil _).symm⟩
  | typeText t =>
    exact ⟨c, by simpa [step, setInputText] using hc, rfl, rfl, [],
      (List.append_nil _).symm⟩
  | speech results =>
    exact ⟨c, by simpa [step, recognitionOnResult] using hc, rfl, rfl, [],
      (List.append_nil _).symm⟩
  | selectById id =>
    refine ⟨c, ?_, rfl, rfl, [], (List.append_nil _).symm⟩
    have : (selectConversationById σ.app id).conversations = σ.app.conversations := by
      unfold selectConversationById
      cases σ.app.conversations.find? (fun conv => conv.id = id) with
      | none => rfl
      | some d => rfl
    simpa [step, this] using hc
  | send now =>
    by_cases hemp : jsTrim σ.app.inputText = ""
    · exact ⟨c, by simpa [step, handleSendMessage, hemp] using hc, rfl, rfl, [],
        (List.append_nil _).symm⟩
    · cases hcur : σ.app.currentConversation with
      | none =>
        refine ⟨c, ?_, rfl, rfl, [], (List.append_nil _).symm⟩
        have hlt : i < σ.app.conversations.length :=
          (List.getElem?_eq_some_iff.1 hc).1
        simp only [step, handleSendMessage, hemp, hcur]
        simpa [List.getElem?_append_left hlt] using hc
      | some cc =>
        by_cases hid : c.id = cc.id
        · have hmemc : c ∈ σ.app.conversations := List.getElem?_mem hc
          have hmemcc : cc ∈ σ.app.conversations := hinv.2 cc hcur
          have hceq : c = cc :=
            List.inj_on_of_nodup_map hinv.1 hmemc hmemcc hid
          subst hceq
          refine ⟨{ c with messages := c.messages ++
              [{ text := σ.app.inputText, isUser := true }] }, ?_, rfl, rfl,
            [{ text := σ.app.inputText, isUser := true }], rfl⟩
          simp only [step, handleSendMessage, hemp, hcur]
          simp [List.getElem?_map, hc]
        · refine ⟨c, ?_, rfl, rfl, [], (List.append_nil _).symm⟩
          simp only [step, handleSendMessage, hemp, hcur]
          simp [List.getElem?_map, hc, hid]

/-- Witness for C4 amended: starting a new conversation on `stateA`
leaves the stored conversation at position 0 untouched. -/
theorem C4_append_only_except_reply_fire_witness :
    ∃ c', (step { app := stateA, pending := [] } Event.newConv).app.conversations[0]? =
        some c' ∧ c'.id = convA.id ∧ c'.title = convA.title ∧
      ∃ t, c'.messages = convA.messages ++ t :=
  C4_append_only_except_reply_fire { app := stateA, pending := [] } Event.newConv
    ⟨by decide, by intro cc h; simp [stateA] at h; simp [h, stateA]⟩
    (by decide) 0 convA (by decide)

/-- C2: for a draft whose trim is non-empty, `handleSendMessage` clears
the draft and appends exactly one user message `{text: draft, isUser:
true}`: to the active conversation when one is active (the updated
conversation replaces the stored entry with the same id at its original
position, all other entries are untouched and the list length is
unchanged), and otherwise as the sole message of a fresh conversation
that becomes active and is appended at the end of the list. -/
theorem C2_send_appends_exactly_one_user_message (s : AppState) (now : Nat)
    (h : jsTrim s.inputText ≠ "") :
    (handleSendMessage s now).1.inputText = "" ∧
    (∀ cc, s.currentConversation = some cc →
      (handleSendMessage s now).1.currentConversation =
        some { cc with messages := cc.messages ++ [{ text := s.inputText, isUser := true }] } ∧
      (handleSendMessage s now).1.conversations.length = s.conversations.length ∧
      (∀ (i : Nat) (c : Conversation), s.conversations[i]? = some c →
        (c.id ≠ cc.id → (handleSendMessage s now).1.conversations[i]? = some c) ∧
        (c.id = cc.id → (handleSendMessage s now).1.conversations[i]? =
          some { cc with messages := cc.messages ++ [{ text := s.inputText, isUser := true }] }))) ∧
    (s.currentConversation = none →
      (handleSendMessage s now).1.currentConversation =
        some { id := now, title := mkTitle s.inputText,
               messages := [{ text := s.inputText, isUser := true }] } ∧
      (handleSendMessage s now).1.conversations =
        s.conversations ++ [{ id := now, title := mkTitle s.inputText,
                              messages := [{ text := s.inputText, isUser := true }] }]) := by
  refine ⟨?_, ?_, ?_⟩
  · cases hcur : s.currentConversation <;> simp [handleSendMessage, h, hcur]
  · intro cc hcur
    refine ⟨by simp [handleSendMessage, h, hcur], by simp [handleSendMessage, h, hcur], ?_⟩
    intro i c hc
    constructor
    · intro hne
      simp [handleSendMessage, h, hcur, List.getElem?_map, hc, hne]
    · intro heq
      simp [handleSendMessage, h, hcur, List.getElem?_map, hc, heq]
  · intro hcur
    simp [handleSendMessage, h, hcur]

/-- Witness for C2: sending the draft "yo" from the fresh state clears
the draft. -/
theorem C2_send_appends_exactly_one_user_message_witness :
    (handleSendMessage { conversations := [], currentConversation := none,
                         inputText := "yo", isListening := false } 9).1.inputText = "" :=
  (C2_send_appends_exactly_one_user_message _ 9 (by decide)).1

/-- C10: the stored user message carries the draft exactly as typed:
trimming is used only for the emptiness test, so leading and trailing
whitespace survive verbatim in the appended user message, in the
captured closure values, and in the echoed bot reply text
`"You said: " + draft`. -/
theorem C10_draft_stored_verbatim (s : AppState) (now : Nat)
    (h : jsTrim s.inputText ≠ "") :
    (∀ cc, s.currentConversation = some cc →
      ∃ cc', (handleSendMessage s now).1.currentConversation = some cc' ∧
        cc'.messages.getLast? = some { text := s.inputText, isUser := true }) ∧
    (s.currentConversation = none →
      ∃ cc', (handleSendMessage s now).1.currentConversation = some cc' ∧
        cc'.messages = [{ text := s.inputText, isUser := true }]) ∧
    (∃ p, (handleSendMessage s now).2 = some p ∧ p.inputText = s.inputText ∧
      p.newMessage = { text := s.inputText, isUser := true } ∧
      ∀ (s' : AppState) (cc : Conversation), p.currentConversation = some cc →
        ∃ cc', (replyCallback p s').currentConversation = some cc' ∧
          cc'.messages.getLast? =
            some { text := "You said: " ++ s.inputText, isUser := false }) := by
  refine ⟨?_, ?_, ?_⟩
  · intro cc hcur
    refine ⟨{ cc with messages := cc.messages ++ [{ text := s.inputText, isUser := true }] },
      by simp [handleSendMessage, h, hcur], ?_⟩
    simp [List.getLast?_concat]
  · intro hcur
    exact ⟨{ id := now, title := mkTitle s.inputText,
             messages := [{ text := s.inputText, isUser := true }] },
      by simp [handleSendMessage, h, hcur], rfl⟩
  · refine ⟨{ delayMs := 1000, conversations := s.conversations,
              currentConversation := s.currentConversation,
              inputText := s.inputText,
              newMessage := { text := s.inputText, isUser := true } }, ?_, rfl, rfl, ?_⟩
    · cases hcur : s.currentConversation <;> simp [handleSendMessage, h, hcur]
    · intro s' cc hcc
      simp only at hcc
      refine ⟨{ cc with messages := cc.messages ++
          [{ text := s.inputText, isUser := true },
           { text := "You said: " ++ s.inputText, isUser := false }] },
        by simp [replyCallback, hcc], ?_⟩
      have : cc.messages ++
          [{ text := s.inputText, isUser := true },
           { text := "You said: " ++ s.inputText, isUser := false }] =
          (cc.messages ++ [{ text := s.inputText, isUser := true }]) ++
            [({ text := "You said: " ++ s.inputText, isUser := false } : Message)] := by
        simp
      rw [this, List.getLast?_concat]

/-- Witness for C10 at the whitespace-padded draft "  hi  ": the stored
message keeps the padding. -/
theorem C10_draft_stored_verbatim_witness :
    ∃ cc', (handleSendMessage { conversations := [], currentConversation := none,
                                inputText := "  hi  ", isListening := false } 4).1.currentConversation =
        some cc' ∧
      cc'.messages = [{ text := "  hi  ", isUser := true }] :=
  (C10_draft_stored_verbatim _ 4 (by decide)).2.1 rfl

/-- C8: `startNewConversation` clears only the active pointer (stored
conversations, draft and listening flag are untouched), and a subsequent
send of a non-blank draft creates a second, distinct conversation: the
list grows by one at the end, every original entry -- in particular the
original conversation and its message count -- is unchanged, and for a
fresh id the created conversation differs from every stored one. -/
theorem C8_startNewConversation_clears_only_pointer (s : AppState) (t : String) (now : Nat)
    (ht : jsTrim t ≠ "") :
    (startNewConversation s).conversations = s.conversations ∧
    (startNewConversation s).currentConversation = none ∧
    (startNewConversation s).inputText = s.inputText ∧
    (startNewConversation s).isListening = s.isListening ∧
    (handleSendMessage (setInputText t (startNewConversation s)) now).1.conversations.length =
      s.conversations.length + 1 ∧
    (∀ i : Nat, i < s.conversations.length →
      (handleSendMessage (setInputText t (startNewConversation s)) now).1.conversations[i]? =
        s.conversations[i]?) ∧
    (handleSendMessage (setInputText t
        (startNewConversation s)) now).1.conversations[s.conversations.length]? =
      some { id := now, title := mkTitle t, messages := [{ text := t, isUser := true }] } ∧
    ((∀ c ∈ s.conversations, c.id ≠ now) →
      ({ id := now, title := mkTitle t,
         messages := [{ text := t, isUser := true }] } : Conversation) ∉ s.conversations) := by
  have hconvs : (handleSendMessage (setInputText t (startNewConversation s)) now).1.conversations =
      s.conversations ++
        [{ id := now, title := mkTitle t, messages := [{ text := t, isUser := true }] }] := by
    simp [handleSendMessage, startNewConversation, setInputText, ht]
  refine ⟨rfl, rfl, rfl, rfl, ?_, ?_, ?_, ?_⟩
  · rw [hconvs]; simp
  · intro i hi
    rw [hconvs, List.getElem?_append_left hi]
  · rw [hconvs, List.getElem?_concat_length]
  · intro hfresh hmem
    exact hfresh _ hmem rfl

/-- Witness for C8: after clearing the pointer on `stateA` and sending
"Hi", the new conversation sits at position 1. -/
theorem C8_startNewConversation_clears_only_pointer_witness :
    (handleSendMessage (setInputText "Hi"
        (startNewConversation stateA)) 42).1.conversations[stateA.conversations.length]? =
      some { id := 42, title := mkTitle "Hi", messages := [{ text := "Hi", isUser := true }] } :=
  (C8_startNewConversation_clears_only_pointer stateA "Hi" 42 (by decide)).2.2.2.2.2.2.1

/-- Titles produced at creation are at most 30 + 3 characters long. -/
theorem mkTitle_length_le (text : String) : (mkTitle text).length ≤ 33 := by
  unfold mkTitle jsTake
  rw [String.length_append]
  have h1 : (String.mk (text.data.take 30)).length ≤ 30 := by
    have : (String.mk (text.data.take 30)).length = (text.data.take 30).length := rfl
    rw [this, List.length_take]
    omega
  have h2 : (if text.length > 30 then ("..." : String) else "").length ≤ 3 := by
    split <;> decide
  omega

/-- Origin of any conversation record after one step: it either carries
the id and title of a record already in the system, or it was created by
this very event (a send into no active conversation), with id `now` and
title computed by `mkTitle` from the pre-step draft. -/
theorem inSys_step_origin (σ : SysState) (e : Event) (c' : Conversation)
    (h : InSys (step σ e) c') :
    (∃ cc, InSys σ cc ∧ c'.id = cc.id ∧ c'.title = cc.title) ∨
    ∃ now, e = .send now ∧ c'.id = now ∧ c'.title = mkTitle σ.app.inputText := by
  cases e with
  | typeText t =>
    exact Or.inl ⟨c', by simpa [InSys, step, setInputText] using h, rfl, rfl⟩
  | speech results =>
    exact Or.inl ⟨c', by simpa [InSys, step, recognitionOnResult] using h, rfl, rfl⟩
  | newConv =>
    refine Or.inl ⟨c', ?_, rfl, rfl⟩
    simp only [InSys, step, startNewConversation] at h ⊢
    rcases h with h1 | h2 | h3
    · exact Or.inl h1
    · simp at h2
    · exact Or.inr (Or.inr h3)
  | selectById id =>
    refine Or.inl ⟨c', ?_, rfl, rfl⟩
    simp only [InSys, step] at h ⊢
    unfold selectConversationById at h
    cases hf : σ.app.conversations.find? (fun conv => conv.id = id) with
    | none => rw [hf] at h; exact h
    | some d =>
      rw [hf] at h
      simp only [selectConversation] at h
      rcases h with h1 | h2 | h3
      · exact Or.inl h1
      · obtain rfl : d = c' := Option.some.inj h2
        exact Or.inl (List.mem_of_find?_eq_some hf)
      · exact Or.inr (Or.inr h3)
  | fire =>
    refine Or.inl ?_
    cases hp : σ.pending with
    | nil =>
      refine ⟨c', ?_, rfl, rfl⟩
      simp only [InSys, step, hp] at h
      simpa [InSys, hp] using h
    | cons p rest =>
      have hpmem : p ∈ σ.pending := by rw [hp]; exact List.mem_cons_self p rest
      simp only [InSys, step, hp] at h
      cases hpc : p.currentConversation with
      | none =>
        refine ⟨c', ?_, rfl, rfl⟩
        simp only [replyCallback, hpc] at h
        rcases h with h1 | h2 | h3
        · exact Or.inl h1
        · exact Or.inr (Or.inl h2)
        · rcases h3 with ⟨q, hq, hqc⟩
          exact Or.inr (Or.inr ⟨q, by rw [hp]; exact List.mem_cons_of_mem p hq, hqc⟩)
      | some pcc =>
        have hpccIn : InSys σ pcc := Or.inr (Or.inr ⟨p, hpmem, Or.inr hpc⟩)
        simp only [replyCallback, hpc] at h
        rcases h with h1 | h2 | h3
        · rcases List.mem_map.1 h1 with ⟨d, hd, hdc⟩
          by_cases hid : d.id = pcc.id
          · rw [if_pos hid] at hdc
            refine ⟨pcc, hpccIn, ?_, ?_⟩
            · rw [← hdc]
            · rw [← hdc]
          · rw [if_neg hid] at hdc
            exact ⟨c', Or.inr (Or.inr ⟨p, hpmem, Or.inl (hdc ▸ hd)⟩), rfl, rfl⟩
        · obtain rfl := Option.some.inj h2
          exact ⟨pcc, hpccIn, rfl, rfl⟩
        · rcases h3 with ⟨q, hq, hqc⟩
          exact ⟨c', Or.inr (Or.inr ⟨q, by rw [hp]; exact List.mem_cons_of_mem p hq, hqc⟩),
            rfl, rfl⟩
  | send now =>
    by_cases hemp : jsTrim σ.app.inputText = ""
    · refine Or.inl ⟨c', ?_, rfl, rfl⟩
      simpa [InSys, step, handleSendMessage, hemp] using h
    · cases hcur : σ.app.currentConversation with
      | some cc =>
        have hccIn : InSys σ cc := Or.inr (Or.inl hcur)
        refine Or.inl ?_
        simp only [InSys, step, handleSendMessage, if_neg hemp, hcur] at h
        rcases h with h1 | h2 | h3
        · rcases List.mem_map.1 h1 with ⟨d, hd, hdc⟩
          by_cases hid : d.id = cc.id
          · rw [if_pos hid] at hdc
            refine ⟨cc, hccIn, ?_, ?_⟩
            · rw [← hdc]
            · rw [← hdc]
          · rw [if_neg hid] at hdc
            exact ⟨c', Or.inl (hdc ▸ hd), rfl, rfl⟩
        · obtain rfl := Option.some.inj h2
          exact ⟨cc, hccIn, rfl, rfl⟩
        · rcases h3 with ⟨q, hq, hqc⟩
          rcases List.mem_append.1 hq with hq1 | hq2
          · exact ⟨c', Or.inr (Or.inr ⟨q, hq1, hqc⟩), rfl, rfl⟩
          · rcases List.mem_singleton.1 hq2 with rfl
            rcases hqc with hqc1 | hqc2
            · exact ⟨c', Or.inl hqc1, rfl, rfl⟩
            · obtain rfl : cc = c' := Option.some.inj (by simpa using hqc2)
              exact ⟨cc, hccIn, rfl, rfl⟩
      | none =>
        simp only [InSys, step, handleSendMessage, if_neg hemp, hcur] at h
        rcases h with h1 | h2 | h3
        · rcases List.mem_append.1 h1 with hm | hm
          · exact Or.inl ⟨c', Or.inl hm, rfl, rfl⟩
          · rcases List.mem_singleton.1 hm with rfl
            exact Or.inr ⟨now, rfl, rfl, rfl⟩
        · obtain rfl := Option.some.inj h2
          exact Or.inr ⟨now, rfl, rfl, rfl⟩
        · rcases h3 with ⟨q, hq, hqc⟩
          rcases List.mem_append.1 hq with hq1 | hq2
          · exact Or.inl ⟨c', Or.inr (Or.inr ⟨q, hq1, hqc⟩), rfl, rfl⟩
          · rcases List.mem_singleton.1 hq2 with rfl
            rcases hqc with hqc1 | hqc2
            · exact Or.inl ⟨c', Or.inl hqc1, rfl, rfl⟩
            · simp [hcur] at hqc2

/-- One step preserves the 33-character bound on every title in the
system. -/
theorem titlesBounded_step (σ : SysState) (e : Event) (hB : TitlesBounded σ) :
    TitlesBounded (step σ e) := by
  intro c' hc'
  rcases inSys_step_origin σ e c' hc' with ⟨cc, hccIn, _, ht⟩ | ⟨now, _, _, ht⟩
  · rw [ht]; exact hB cc hccIn
  · rw [ht]; exact mkTitle_length_le _

/-- The fresh state has no conversation records at all. -/
theorem titlesBounded_init : TitlesBounded initState := by
  intro c hc
  simp [InSys, initState] at hc

/-- Folding `step` preserves the title bound. -/
theorem titlesBounded_foldl (σ : SysState) (es : List Event) (hB : TitlesBounded σ) :
    TitlesBounded (es.foldl step σ) := by
  induction es generalizing σ with
  | nil => exact hB
  | cons e es ih => exact ih _ (titlesBounded_step σ e hB)

/-- Every reachable state has only titles of at most 33 characters. -/
theorem titlesBounded_run (es : List Event) : TitlesBounded (run es) :=
  titlesBounded_foldl initState es titlesBounded_init

/-- C6: a send with no active conversation creates a conversation whose
title is the first 30 characters of the submitted text with the "..."
suffix exactly when the text is longer than 30 characters; consequently
every title of every reachable state is at most 33 characters long; and
no operation ever recomputes a title: under title-consistency of the
current state and freshness of the send timestamp, any record after a
step that shares an id with an existing record keeps its title,
whatever messages were added meanwhile. -/
theorem C6_title_fixed_at_creation :
    (∀ (s : AppState) (now : Nat), jsTrim s.inputText ≠ "" → s.currentConversation = none →
      (handleSendMessage s now).1.currentConversation =
        some { id := now,
               title := jsTake s.inputText 30 ++
                 (if s.inputText.length > 30 then "..." else ""),
               messages := [{ text := s.inputText, isUser := true }] }) ∧
    (∀ text : String, (mkTitle text).length ≤ 33) ∧
    (∀ es : List Event, ∀ c ∈ (run es).app.conversations, c.title.length ≤ 33) ∧
    (∀ (σ : SysState) (e : Event), TitlesAgree σ → FreshFor σ e →
      ∀ c, InSys σ c → ∀ c', InSys (step σ e) c' → c'.id = c.id → c'.title = c.title) := by
  refine ⟨?_, mkTitle_length_le, ?_, ?_⟩
  · intro s now h hcur
    simp [handleSendMessage, if_neg h, hcur, mkTitle]
  · intro es c hc
    exact titlesBounded_run es c (Or.inl hc)
  · intro σ e hTA hF c hcIn c' hc'In hid
    rcases inSys_step_origin σ e c' hc'In with ⟨cc, hccIn, hid2, ht⟩ | ⟨now, he, hidn, ht⟩
    · rw [ht]
      exact hTA cc hccIn c hcIn (hid2.symm.trans hid)
    · exact absurd (hid ▸ hidn) (hF now he c hcIn)

/-- Witness for C6: the 37-character scenario text from the spec yields
the truncated, ellipsized title. -/
theorem C6_title_fixed_at_creation_witness :
    (handleSendMessage { conversations := [], currentConversation := none,
                         inputText := "Hello there, how are you today friend",
                         isListening := false } 7).1.currentConversation =
      some { id := 7,
             title := jsTake "Hello there, how are you today friend" 30 ++
               (if ("Hello there, how are you today friend" : String).length > 30 then
                 "..." else ""),
             messages := [{ text := "Hello there, how are you today friend",
                            isUser := true }] } :=
  C6_title_fixed_at_creation.1 _ 7 (by decide) rfl
